import Mathlib

/-!
Shallow embedding of the resilient multi-endpoint inference client from
`src/app/ai_client.py` (class `DOAIClient` and the dataclass `EndpointConfig`),
together with theorems settling the frozen claims about it.

Modelling conventions:
* wall-clock time is an explicit `Nat` parameter `now` (the Python code reads
  `datetime.now()`);
* HTTP traffic is an oracle: each attempt's outcome is supplied by an
  environment function, and issued requests are recorded in a trace;
* Python's `float(...)` string parse and `base64.b64decode` are library calls,
  modelled as oracle parameters (`fp`, `b64`);
* exceptions that escape a method are modelled with `Except PyError`;
* delays are rationals (`base_delay = 1.0`, doublings and `Retry-After`
  values are exact in the source's float arithmetic at these magnitudes).
-/

/-- Exceptions that can escape the embedded methods
(`KeyError` from `self.sessions[...]`, `IndexError` from `split(',', 1)[1]`,
`binascii.Error` from `base64.b64decode`, `requests.HTTPError` from
`raise_for_status` on the image download, other transport errors). -/
inductive PyError where
  | keyError (k : String)
  | indexError
  | binasciiError
  | httpStatusError (status : Nat)
  | requestError
  deriving Repr, DecidableEq

/-- `EndpointConfig` dataclass of `src/app/ai_client.py` (lines 17-45).
Timestamps are `Nat` instants. -/
structure EndpointConfig where
  base_url : String
  access_key : String
  model_chat : String
  model_image : String
  name : String
  last_rate_limit_time : Option Nat := none
  cooldown_until : Option Nat := none
  deriving Repr, DecidableEq

instance : Inhabited EndpointConfig :=
  ⟨{ base_url := "", access_key := "", model_chat := "", model_image := "", name := "" }⟩

/-- `EndpointConfig.is_available` (lines 30-34): available iff `cooldown_until`
is unset or `now` is at or past it. -/
def EndpointConfig.is_available (now : Nat) (e : EndpointConfig) : Bool :=
  match e.cooldown_until with
  | none => true
  | some d => decide (now ≥ d)

/-- `EndpointConfig.mark_rate_limited` (lines 36-40): records the event time and
sets `cooldown_until = now + cooldown_seconds`. -/
def EndpointConfig.mark_rate_limited (now : Nat) (cooldown_seconds : Nat)
    (e : EndpointConfig) : EndpointConfig :=
  { e with last_rate_limit_time := some now,
           cooldown_until := some (now + cooldown_seconds) }

/-- `EndpointConfig.reset_cooldown` (lines 42-45): unsets `cooldown_until`. -/
def EndpointConfig.reset_cooldown (e : EndpointConfig) : EndpointConfig :=
  { e with cooldown_until := none }

/-- One HTTP request as issued by the client: target URL and the `timeout=`
argument passed to `requests`. (The JSON payload is not needed by any claim.) -/
structure HttpRequest where
  url : String
  timeout : Nat
  deriving Repr, DecidableEq

/-- Outcome of one `session.post` attempt, as seen by the `try`/`except`
ladder in `_try_endpoint_request` (lines 137-194): a 2xx response with parsed
body `α`; an `HTTPError` from `raise_for_status` carrying the status and the
optional `Retry-After` header; a `RequestException` (transport failure);
or any other exception (e.g. a body that fails to parse as JSON). -/
inductive HttpOut (α : Type) where
  | ok (body : α)
  | httpErr (status : Nat) (retryAfter : Option String)
  | netErr
  | otherErr
  deriving Repr, DecidableEq

/-- `base_delay = 1.0` (line 133). -/
def base_delay : ℚ := 1

/-- The delay computation of the 429 branch (lines 154-165): a present,
non-empty `Retry-After` header that parses as a float is used verbatim;
otherwise `base_delay * 2 ** attempt` (`attempt` is 0-based).
`fp` is the oracle for Python's `float(...)` parse (`none` = `ValueError`). -/
def computeDelay429 (fp : String → Option ℚ) (retryAfter : Option String)
    (attempt : Nat) : ℚ :=
  match retryAfter with
  | some s =>
    if s ≠ "" then
      match fp s with
      | some q => q
      | none => base_delay * 2 ^ attempt
    else
      base_delay * 2 ^ attempt
  | none => base_delay * 2 ^ attempt

/-- Result of `_try_endpoint_request` on one endpoint: the optional JSON body,
the endpoint's updated state, the sleeps performed (`time.sleep` arguments in
order) and the HTTP requests issued. -/
structure AttemptResult (α : Type) where
  result : Option α
  endpoint : EndpointConfig
  sleeps : List ℚ
  requests : List HttpRequest
  deriving Repr, DecidableEq

/-- The `for attempt in range(max_retries)` loop of `_try_endpoint_request`
(lines 137-196). `responses` gives the outcome of the POST at each 0-based
attempt index; the two trailing arguments are the current 0-based `attempt`
and the number of loop iterations still to run (the loop is entered with
`0` and `max_retries`, so the pair walks `range(max_retries)`). Each POST is
issued with `timeout=30` (line 143). On 2xx the endpoint's cooldown is reset
if set (lines 146-148); on 429 the delay is computed and, if attempts remain,
slept (lines 152-176), else the endpoint is marked rate limited; other HTTP
errors and unexpected errors fail immediately; network errors back off and
retry while attempts remain (lines 182-190). -/
def tryEndpointLoop {α : Type} (fp : String → Option ℚ)
    (responses : Nat → HttpOut α) (max_retries : Nat) (url : String)
    (endpoint_cooldown now : Nat) (endpoint : EndpointConfig) :
    Nat → Nat → AttemptResult α
  | _, 0 => ⟨none, endpoint, [], []⟩
  | attempt, left + 1 =>
    let req : HttpRequest := ⟨url, 30⟩
    match responses attempt with
    | .ok body =>
        let e2 := if endpoint.cooldown_until ≠ none
                  then endpoint.reset_cooldown else endpoint
        ⟨some body, e2, [], [req]⟩
    | .httpErr status ra =>
        if status = 429 then
          let delay := computeDelay429 fp ra attempt
          if attempt < max_retries - 1 then
            let rest := tryEndpointLoop fp responses max_retries url
              endpoint_cooldown now endpoint (attempt + 1) left
            ⟨rest.result, rest.endpoint, delay :: rest.sleeps,
             req :: rest.requests⟩
          else
            ⟨none, endpoint.mark_rate_limited now endpoint_cooldown, [], [req]⟩
        else
          ⟨none, endpoint, [], [req]⟩
    | .netErr =>
        if attempt < max_retries - 1 then
          let delay := base_delay * 2 ^ attempt
          let rest := tryEndpointLoop fp responses max_retries url
            endpoint_cooldown now endpoint (attempt + 1) left
          ⟨rest.result, rest.endpoint, delay :: rest.sleeps,
           req :: rest.requests⟩
        else
          ⟨none, endpoint, [], [req]⟩
    | .otherErr => ⟨none, endpoint, [], [req]⟩

/-- `DOAIClient._try_endpoint_request` (lines 119-196): looks up the
endpoint's session in the session map (line 134, a `KeyError` if absent —
that lookup is before the `try`, so it escapes), then runs the retry loop on
`endpoint.base_url + url_path` (line 135). -/
def tryEndpointRequest {α : Type} (fp : String → Option ℚ)
    (responses : Nat → HttpOut α) (sessions : List String)
    (endpoint : EndpointConfig) (url_path : String)
    (endpoint_cooldown now : Nat) (max_retries : Nat) :
    Except PyError (AttemptResult α) :=
  if endpoint.name ∈ sessions then
    .ok (tryEndpointLoop fp responses max_retries
      (endpoint.base_url ++ url_path) endpoint_cooldown now endpoint 0 max_retries)
  else
    .error (.keyError endpoint.name)

/-- One element of `choices` in a chat response body. `message_content` is
`some c` exactly when `"message" in choice and "content" in choice["message"]`
holds with value `c`; `text` mirrors the optional `"text"` key. -/
structure ChatChoice where
  message_content : Option String
  text : Option String
  deriving Repr, DecidableEq

/-- A parsed chat response body: the `choices` array. -/
structure ChatBody where
  choices : List ChatChoice
  deriving Repr, DecidableEq

/-- The extraction logic of `generate_chat_response` (lines 239-250):
`choices[0].message.content` if present, else `choices[0].text`, each
stripped; `none` when the format is unexpected (logged at line 250). -/
def extractChatText (body : ChatBody) : Option String :=
  match body.choices.head? with
  | some choice =>
    match choice.message_content with
    | some content => some content.trim
    | none =>
      match choice.text with
      | some t => some t.trim
      | none => none
  | none => none

/-- `DOAIClient.FALLBACK_RESPONSES` (lines 52-57). -/
def FALLBACK_RESPONSES : List String :=
  [ "Waduh bro, gue lagi kena rate limit dari API nih. Coba lagi nanti ya! 😅",
    "Maaf ya, API gue lagi dibatasin. Tunggu sebentar dulu ya bro! 🙏",
    "Eh sorry, quota API gue abis nih. Nanti gue bales lagi ya! 😊",
    "Wah, API limit exceeded bro. Sabar ya, nanti gue online lagi! 💪" ]

/-- The mutable state of a `DOAIClient` (lines 48-94). `sessions` records the
keys of the per-endpoint session map (the session objects themselves carry no
state the claims depend on). -/
structure DOAIClient where
  endpoints : List EndpointConfig
  max_tokens : Nat
  enable_fallback : Bool
  endpoint_cooldown : Nat
  fallback_counter : Nat
  current_endpoint_index : Nat
  sessions : List String
  deriving Repr, DecidableEq

/-- `DOAIClient.__init__` (lines 59-94): rejects an empty endpoint list
(`ValueError`, modelled as `none`), zeroes the fallback counter and the
rotation cursor, and opens one session per endpoint name. -/
def DOAIClient.init (endpoints : List EndpointConfig) (max_tokens : Nat)
    (enable_fallback : Bool) (endpoint_cooldown : Nat) : Option DOAIClient :=
  if endpoints.isEmpty then none
  else some
    { endpoints := endpoints
      max_tokens := max_tokens
      enable_fallback := enable_fallback
      endpoint_cooldown := endpoint_cooldown
      fallback_counter := 0
      current_endpoint_index := 0
      sessions := endpoints.map (fun e => e.name) }

/-- The scan of `_get_next_available_endpoint` (lines 104-113): for
`i = 0, 1, ...` while iterations are left (the scan is entered with `i = 0`
and `len(endpoints)` iterations, walking `range(len(endpoints))`), check the
endpoint at `(current_endpoint_index + i) % len(endpoints)`; on the first
available one, move the cursor there when `i > 0` and return its index. -/
def getNextAvailableEndpointAux (now : Nat) (c : DOAIClient) :
    Nat → Nat → Option (Nat × DOAIClient)
  | _, 0 => none
  | i, left + 1 =>
    let index := (c.current_endpoint_index + i) % c.endpoints.length
    let endpoint := c.endpoints.getD index default
    if endpoint.is_available now then
      some (index, if i > 0 then { c with current_endpoint_index := index } else c)
    else
      getNextAvailableEndpointAux now c (i + 1) left

/-- `DOAIClient._get_next_available_endpoint` (lines 96-117): the scan starting
at `i = 0`, or `none` when every endpoint is in cooldown. The selected
endpoint is identified by its index in `endpoints`. -/
def DOAIClient.getNextAvailableEndpoint (now : Nat) (c : DOAIClient) :
    Option (Nat × DOAIClient) :=
  getNextAvailableEndpointAux now c 0 c.endpoints.length

/-- The selection expression of `_get_fallback_response` (line 342) over an
explicit response list and counter: the entry at `counter % len(list)`,
paired with the incremented counter (line 343). -/
def getFallbackResponseFrom (responses : List String) (counter : Nat) :
    String × Nat :=
  (responses.getD (counter % responses.length) "", counter + 1)

/-- `DOAIClient._get_fallback_response` (lines 334-344): the selection applied
to `FALLBACK_RESPONSES` and the client's own counter. -/
def DOAIClient.getFallbackResponse (c : DOAIClient) : String × DOAIClient :=
  let p := getFallbackResponseFrom FALLBACK_RESPONSES c.fallback_counter
  (p.1, { c with fallback_counter := p.2 })

/-- `DOAIClient.close` (lines 346-355): closes every session and clears the
session map. -/
def DOAIClient.close (c : DOAIClient) : DOAIClient :=
  { c with sessions := [] }

/-- Observable outcome of one `generate_chat_response` call: the value
returned to the caller, the client's final state, the 0-based indices of the
endpoints on which `_try_endpoint_request` was invoked (in order), and the
HTTP requests issued and sleeps performed. -/
structure ChatCallResult where
  response : Option String
  client : DOAIClient
  trace : List Nat
  requests : List HttpRequest
  sleeps : List ℚ
  deriving Repr, DecidableEq

/-- The post-loop tail of `generate_chat_response` (lines 256-265): all
endpoints failed; return a fallback response when enabled, else `None`. -/
def finishChat (c : DOAIClient) : ChatCallResult :=
  if c.enable_fallback then
    let p := c.getFallbackResponse
    ⟨some p.1, p.2, [], [], []⟩
  else
    ⟨none, c, [], [], []⟩

/-- The `for _ in range(len(self.endpoints))` loop of `generate_chat_response`
(lines 211-254), with `fuel` outer iterations remaining and `k` the 0-based
index of the current iteration. `env k` gives the POST outcomes of iteration
`k`'s attempts. Each iteration selects the next available endpoint (breaking
to the post-loop tail when none is), invokes `_try_endpoint_request` with
`max_retries=3` on `/chat/completions`, returns the extracted text on
success, and otherwise advances the cursor by one (line 254) and continues.
(Python's `if result_json:` treats an empty dict like `None`; the typed body
has no empty-dict value, so `some body` covers every truthy body.) -/
def chatLoopAux (fp : String → Option ℚ) (env : Nat → Nat → HttpOut ChatBody)
    (now : Nat) (k : Nat) (fuel : Nat) (c : DOAIClient) :
    Except PyError ChatCallResult :=
  match fuel with
  | 0 => .ok (finishChat c)
  | fuel + 1 =>
    match c.getNextAvailableEndpoint now with
    | none => .ok (finishChat c)
    | some (idx, c1) =>
      let endpoint := c1.endpoints.getD idx default
      match tryEndpointRequest fp (env k) c1.sessions endpoint
              "/chat/completions" c1.endpoint_cooldown now 3 with
      | .error e => .error e
      | .ok ar =>
        let c2 : DOAIClient := { c1 with endpoints := c1.endpoints.set idx ar.endpoint }
        let failNext : Except PyError ChatCallResult :=
          let c3 : DOAIClient := { c2 with current_endpoint_index :=
            (c2.current_endpoint_index + 1) % c2.endpoints.length }
          match chatLoopAux fp env now (k + 1) fuel c3 with
          | .error e => .error e
          | .ok r => .ok ⟨r.response, r.client, idx :: r.trace,
              ar.requests ++ r.requests, ar.sleeps ++ r.sleeps⟩
        match ar.result with
        | some body =>
          match extractChatText body with
          | some s => .ok ⟨some s, c2, [idx], ar.requests, ar.sleeps⟩
          | none => failNext
        | none => failNext

/-- `DOAIClient.generate_chat_response` (lines 198-265): the outer loop run
for `len(endpoints)` iterations, then the fallback tail. -/
def DOAIClient.generate_chat_response (fp : String → Option ℚ)
    (env : Nat → Nat → HttpOut ChatBody) (now : Nat) (c : DOAIClient) :
    Except PyError ChatCallResult :=
  chatLoopAux fp env now 0 c.endpoints.length c

/-- One element of `data` in an image response body: the optional `b64_json`
and `url` keys. -/
structure ImageItem where
  b64_json : Option String
  url : Option String
  deriving Repr, DecidableEq

/-- A parsed image response body: the `data` array. -/
structure ImageBody where
  data : List ImageItem
  deriving Repr, DecidableEq

/-- Python `s.startswith(p)`, over the underlying characters. -/
def startsWithChars (s p : String) : Bool :=
  p.data.isPrefixOf s.data

/-- Everything after the first comma of the character list, or `none` when
there is no comma: the `[1]` component of Python `split(',', 1)`. -/
def splitCommaOnce : List Char → Option (List Char)
  | [] => none
  | c :: cs => if c = ',' then some cs else splitCommaOnce cs

/-- The prefix stripping of `generate_image` (lines 310-311): when the value
starts with `data:image`, take `split(',', 1)[1]` — everything after the
first comma, an `IndexError` when there is no comma. -/
def stripImagePrefix (s : String) : Except PyError String :=
  if startsWithChars s "data:image" then
    match splitCommaOnce s.data with
    | none => .error .indexError
    | some rest => .ok ⟨rest⟩
  else
    .ok s

/-- Outcome of the `session.get(url, timeout=30)` download plus
`raise_for_status` (lines 318-321): the content bytes, or the exception the
two lines raise (`HTTPError` on bad status, `RequestException` on transport
failure). -/
inductive DownloadOut where
  | ok (content : List Nat)
  | raised (e : PyError)
  deriving Repr, DecidableEq

/-- Observable outcome of one `generate_image` call, mirroring
`ChatCallResult`; `response` holds the returned bytes. -/
structure ImageCallResult where
  response : Option (List Nat)
  client : DOAIClient
  trace : List Nat
  requests : List HttpRequest
  sleeps : List ℚ
  deriving Repr, DecidableEq

/-- The `for _ in range(len(self.endpoints))` loop of `generate_image`
(lines 280-329). `env k` gives iteration `k`'s POST outcomes, `dl k` the
outcome of a URL download performed in iteration `k`, and `b64` models
`base64.b64decode` (`.error` = `binascii.Error`, which propagates, as do the
`IndexError` of the prefix strip and the download's exceptions). Failures
that do not raise advance the cursor (line 329) and continue; after the loop
the call returns `None` (line 332) — no fallback for images. -/
def imageLoopAux (fp : String → Option ℚ) (env : Nat → Nat → HttpOut ImageBody)
    (dl : Nat → DownloadOut) (b64 : String → Except Unit (List Nat))
    (now : Nat) (k : Nat) (fuel : Nat) (c : DOAIClient) :
    Except PyError ImageCallResult :=
  match fuel with
  | 0 => .ok ⟨none, c, [], [], []⟩
  | fuel + 1 =>
    match c.getNextAvailableEndpoint now with
    | none => .ok ⟨none, c, [], [], []⟩
    | some (idx, c1) =>
      let endpoint := c1.endpoints.getD idx default
      match tryEndpointRequest fp (env k) c1.sessions endpoint
              "/images/generations" c1.endpoint_cooldown now 2 with
      | .error e => .error e
      | .ok ar =>
        let c2 : DOAIClient := { c1 with endpoints := c1.endpoints.set idx ar.endpoint }
        let failNext : Except PyError ImageCallResult :=
          let c3 : DOAIClient := { c2 with current_endpoint_index :=
            (c2.current_endpoint_index + 1) % c2.endpoints.length }
          match imageLoopAux fp env dl b64 now (k + 1) fuel c3 with
          | .error e => .error e
          | .ok r => .ok ⟨r.response, r.client, idx :: r.trace,
              ar.requests ++ r.requests, ar.sleeps ++ r.sleeps⟩
        match ar.result with
        | some body =>
          match body.data.head? with
          | some item =>
            match item.b64_json with
            | some image_data =>
              match stripImagePrefix image_data with
              | .error e => .error e
              | .ok stripped =>
                match b64 stripped with
                | .error _ => .error .binasciiError
                | .ok bytes => .ok ⟨some bytes, c2, [idx], ar.requests, ar.sleeps⟩
            | none =>
              match item.url with
              | some u =>
                if endpoint.name ∈ c2.sessions then
                  let req : HttpRequest := ⟨u, 30⟩
                  match dl k with
                  | .raised e => .error e
                  | .ok content =>
                      .ok ⟨some content, c2, [idx], ar.requests ++ [req], ar.sleeps⟩
                else
                  .error (.keyError endpoint.name)
              | none => failNext
          | none => failNext
        | none => failNext

/-- `DOAIClient.generate_image` (lines 267-332): the outer loop run for
`len(endpoints)` iterations; `None` when all fail (no image fallback). -/
def DOAIClient.generate_image (fp : String → Option ℚ)
    (env : Nat → Nat → HttpOut ImageBody) (dl : Nat → DownloadOut)
    (b64 : String → Except Unit (List Nat)) (now : Nat) (c : DOAIClient) :
    Except PyError ImageCallResult :=
  imageLoopAux fp env dl b64 now 0 c.endpoints.length c

/-- Counter value after `n` uses of the fallback selection on `responses`,
starting from a freshly constructed client's counter `0`. -/
def fallbackCounterAfter (responses : List String) : Nat → Nat
  | 0 => 0
  | n + 1 => (getFallbackResponseFrom responses (fallbackCounterAfter responses n)).2

/-- Output of the `(n+1)`-th use of the fallback selection on `responses`
(0-based `n`), starting from counter `0`. -/
def fallbackNthOutput (responses : List String) (n : Nat) : String :=
  (getFallbackResponseFrom responses (fallbackCounterAfter responses n)).1

/-! Concrete fixtures used by counterexamples and witnesses. -/

/-- A healthy endpoint (no cooldown). -/
def epA : EndpointConfig :=
  { base_url := "https://a", access_key := "k", model_chat := "m",
    model_image := "mi", name := "A" }

/-- An endpoint in cooldown until instant 100. -/
def epB : EndpointConfig :=
  { base_url := "https://b", access_key := "k", model_chat := "m",
    model_image := "mi", name := "B", cooldown_until := some 100 }

/-- Two-endpoint client: `epA` healthy, `epB` cooling down. -/
def cl2 : DOAIClient :=
  { endpoints := [epA, epB], max_tokens := 400, enable_fallback := true,
    endpoint_cooldown := 300, fallback_counter := 0,
    current_endpoint_index := 0, sessions := ["A", "B"] }

/-- Single-endpoint client with fallback enabled (the default). -/
def clA : DOAIClient :=
  { endpoints := [epA], max_tokens := 400, enable_fallback := true,
    endpoint_cooldown := 300, fallback_counter := 0,
    current_endpoint_index := 0, sessions := ["A"] }

/-- Single-endpoint client with fallback disabled. -/
def clNF : DOAIClient :=
  { endpoints := [epA], max_tokens := 400, enable_fallback := false,
    endpoint_cooldown := 300, fallback_counter := 0,
    current_endpoint_index := 0, sessions := ["A"] }

/-- Float-parse oracle on which every parse raises `ValueError`. -/
def fp0 : String → Option ℚ := fun _ => none

/-- Chat environment where every POST gets HTTP 500 (a non-429 error). -/
def env500 : Nat → Nat → HttpOut ChatBody := fun _ _ => .httpErr 500 none

/-- Image environment where every POST gets HTTP 500. -/
def envImg500 : Nat → Nat → HttpOut ImageBody := fun _ _ => .httpErr 500 none

/-- A successful chat body whose first choice has neither `message.content`
nor `text`. -/
def badBody : ChatBody := ⟨[⟨none, none⟩]⟩

/-- Chat environment where every POST succeeds with `badBody`. -/
def envBad : Nat → Nat → HttpOut ChatBody := fun _ _ => .ok badBody

/-- Image environment: success with `data[0].b64_json = "data:image"` — the
prefix marker with no comma after it. -/
def envImgNoComma : Nat → Nat → HttpOut ImageBody :=
  fun _ _ => .ok ⟨[⟨some "data:image", none⟩]⟩

/-- Image environment: success with only `data[0].url`. -/
def envImgUrl : Nat → Nat → HttpOut ImageBody :=
  fun _ _ => .ok ⟨[⟨none, some "https://img/x.png"⟩]⟩

/-- Download oracle that succeeds with empty content. -/
def dl0 : Nat → DownloadOut := fun _ => .ok []

/-- Download oracle on which `raise_for_status` raises for HTTP 500. -/
def dlFail : Nat → DownloadOut := fun _ => .raised (.httpStatusError 500)

/-- Base64 oracle that decodes everything to three bytes. -/
def b640 : String → Except Unit (List Nat) := fun _ => .ok [1, 2, 3]

/-- The observable outcome of `generate_chat_response` on `clA` under
`env500`: the one endpoint is tried once, fails, and the first fallback
response is returned. -/
def chatResA : ChatCallResult :=
  ⟨some "Waduh bro, gue lagi kena rate limit dari API nih. Coba lagi nanti ya! 😅",
   { clA with fallback_counter := 1 },
   [0], [⟨"https://a/chat/completions", 30⟩], []⟩

/-! Helper lemmas. -/

/-- The retry loop performs at most `max_retries - 1 - attempt` sleeps from
0-based attempt `attempt` on (where `attempt + left = max_retries`): the
final attempt never sleeps. -/
theorem tryEndpointLoop_sleeps_length {α : Type} (fp : String → Option ℚ)
    (responses : Nat → HttpOut α) (mr : Nat) (url : String) (cd now : Nat)
    (e : EndpointConfig) : ∀ left attempt, attempt + left = mr →
    (tryEndpointLoop fp responses mr url cd now e attempt left).sleeps.length ≤
      mr - 1 - attempt := by
  intro left
  induction left with
  | zero =>
    intro attempt hmr
    simp [tryEndpointLoop]
  | succ left ih =>
    intro attempt hmr
    simp only [tryEndpointLoop]
    cases hr : responses attempt with
    | ok body => simp
    | httpErr status ra =>
      dsimp only
      by_cases h429 : status = 429
      · subst h429
        rw [if_pos rfl]
        by_cases hlast : attempt < mr - 1
        · have hrec := ih (attempt + 1) (by omega)
          rw [if_pos hlast]
          simp only [List.length_cons]
          omega
        · rw [if_neg hlast]
          simp
      · rw [if_neg h429]
        simp
    | netErr =>
      dsimp only
      by_cases hlast : attempt < mr - 1
      · have hrec := ih (attempt + 1) (by omega)
        rw [if_pos hlast]
        simp only [List.length_cons]
        omega
      · rw [if_neg hlast]
        simp
    | otherErr => simp

/-! Claim theorems for the endpoint cooldown, backoff and fallback rotation. -/

/-- C5: an endpoint with no cooldown is available at any instant; immediately
after `mark_rate_limited(e, 5)` at instant `t` (clock unchanged) it is not
available; from instant `t + 5` on it is available again with no explicit
reset call. -/
theorem endpoint_cooldown_availability (e : EndpointConfig) (t : Nat) :
    (e.cooldown_until = none → ∀ now, e.is_available now = true) ∧
    EndpointConfig.is_available t (EndpointConfig.mark_rate_limited t 5 e) = false ∧
    (∀ t2 : Nat, t + 5 ≤ t2 →
      EndpointConfig.is_available t2 (EndpointConfig.mark_rate_limited t 5 e) = true) := by
  refine ⟨fun h now => ?_, ?_, fun t2 h2 => ?_⟩
  · simp [EndpointConfig.is_available, h]
  · simp [EndpointConfig.is_available, EndpointConfig.mark_rate_limited]
  · simp only [EndpointConfig.is_available, EndpointConfig.mark_rate_limited]
    simpa using h2

theorem endpoint_cooldown_availability_witness :
    EndpointConfig.is_available 15 (EndpointConfig.mark_rate_limited 10 5 epA) = true :=
  (endpoint_cooldown_availability epA 10).2.2 15 (by decide)

/-- C6: in `_try_endpoint_request`, a 429 response with a present, numeric
`Retry-After` value makes the delay that value verbatim; otherwise the delay
for 0-based attempt `a` (1-based attempt `k = a + 1`) is
`base_delay * 2 ^ a = base_delay * 2 ^ (k - 1)`, i.e. 1, 2, 4 for attempts
1, 2, 3; and the loop sleeps only while attempts remain — at most
`max_retries - 1` sleeps in one call. -/
theorem retry_backoff_delay_spec :
    (∀ (fp : String → Option ℚ) (s : String) (q : ℚ) (a : Nat),
      s ≠ "" → fp s = some q → computeDelay429 fp (some s) a = q) ∧
    (∀ (fp : String → Option ℚ) (a : Nat),
      computeDelay429 fp none a = base_delay * 2 ^ a) ∧
    (∀ (fp : String → Option ℚ) (s : String) (a : Nat), fp s = none →
      computeDelay429 fp (some s) a = base_delay * 2 ^ a) ∧
    (computeDelay429 fp0 none 0 = 1 ∧ computeDelay429 fp0 none 1 = 2 ∧
      computeDelay429 fp0 none 2 = 4) ∧
    (∀ (α : Type) (fp : String → Option ℚ) (responses : Nat → HttpOut α)
      (mr : Nat) (url : String) (cd now : Nat) (e : EndpointConfig),
      (tryEndpointLoop fp responses mr url cd now e 0 mr).sleeps.length ≤ mr - 1) := by
  refine ⟨?_, ?_, ?_, ⟨?_, ?_, ?_⟩, ?_⟩
  · intro fp s q a hs hq
    simp [computeDelay429, hs, hq]
  · intro fp a
    rfl
  · intro fp s a hn
    by_cases hs : s = ""
    · subst hs
      simp [computeDelay429]
    · simp [computeDelay429, hs, hn]
  · norm_num [computeDelay429, base_delay, fp0]
  · norm_num [computeDelay429, base_delay, fp0]
  · norm_num [computeDelay429, base_delay, fp0]
  · intro α fp responses mr url cd now e
    simpa using tryEndpointLoop_sleeps_length fp responses mr url cd now e mr 0 (by omega)

theorem retry_backoff_delay_spec_witness :
    computeDelay429 (fun _ => some 7) (some "7") 0 = 7 :=
  retry_backoff_delay_spec.1 (fun _ => some 7) "7" 7 0 (by decide) rfl

/-- C7: the fallback selection is strictly cyclic: starting from a fresh
client's counter 0, the `(n+1)`-th call on a non-empty list returns the entry
at index `n % m`, every call increments the counter by exactly one (also at
the client level on `FALLBACK_RESPONSES`), and the four canned responses are
pairwise distinct, so one cycle has no repeats. -/
theorem fallback_rotation_cyclic :
    (∀ (responses : List String) (k : Nat),
      (getFallbackResponseFrom responses k).2 = k + 1) ∧
    (∀ (responses : List String) (n : Nat), fallbackCounterAfter responses n = n) ∧
    (∀ (responses : List String) (h : responses ≠ []) (n : Nat),
      fallbackNthOutput responses n =
        responses.get ⟨n % responses.length, Nat.mod_lt n (List.length_pos.mpr h)⟩) ∧
    (∀ c : DOAIClient,
      (c.getFallbackResponse).2.fallback_counter = c.fallback_counter + 1) ∧
    ((List.range 4).map (fallbackNthOutput FALLBACK_RESPONSES)).Nodup := by
  have hcounter : ∀ (responses : List String) (n : Nat),
      fallbackCounterAfter responses n = n := by
    intro responses n
    induction n with
    | zero => rfl
    | succ n ih => simp [fallbackCounterAfter, getFallbackResponseFrom, ih]
  refine ⟨fun responses k => rfl, hcounter, ?_, fun c => rfl, by decide⟩
  intro responses h n
  have hlt : n % responses.length < responses.length :=
    Nat.mod_lt n (List.length_pos.mpr h)
  simp [fallbackNthOutput, getFallbackResponseFrom, hcounter,
    List.getD_eq_getElem?_getD, List.getElem?_eq_getElem hlt]

theorem fallback_rotation_cyclic_witness :
    fallbackNthOutput FALLBACK_RESPONSES 5 =
      FALLBACK_RESPONSES.get ⟨5 % FALLBACK_RESPONSES.length,
        Nat.mod_lt 5 (List.length_pos.mpr (by decide))⟩ :=
  fallback_rotation_cyclic.2.2.1 FALLBACK_RESPONSES (by decide) 5


/-! Helper lemmas about the retry loop and endpoint selection. -/

/-- The retry loop never changes the endpoint's name. -/
theorem tryEndpointLoop_endpoint_name {α : Type} (fp : String → Option ℚ)
    (responses : Nat → HttpOut α) (mr : Nat) (url : String) (cd now : Nat)
    (e : EndpointConfig) : ∀ left attempt,
    (tryEndpointLoop fp responses mr url cd now e attempt left).endpoint.name = e.name := by
  intro left
  induction left with
  | zero =>
    intro attempt
    simp [tryEndpointLoop]
  | succ left ih =>
    intro attempt
    simp only [tryEndpointLoop]
    cases hr : responses attempt with
    | ok body =>
      dsimp only
      by_cases hc : e.cooldown_until ≠ none
      · simp [hc, EndpointConfig.reset_cooldown]
      · simp [hc]
    | httpErr status ra =>
      dsimp only
      by_cases h429 : status = 429
      · subst h429
        rw [if_pos rfl]
        by_cases hlast : attempt < mr - 1
        · rw [if_pos hlast]
          exact ih (attempt + 1)
        · rw [if_neg hlast]
          simp [EndpointConfig.mark_rate_limited]
      · rw [if_neg h429]
    | netErr =>
      dsimp only
      by_cases hlast : attempt < mr - 1
      · rw [if_pos hlast]
        exact ih (attempt + 1)
      · rw [if_neg hlast]
    | otherErr => rfl

/-- A success leaves the endpoint exactly as before except for the cleared
cooldown. -/
theorem tryEndpointLoop_success_endpoint {α : Type} (fp : String → Option ℚ)
    (responses : Nat → HttpOut α) (mr : Nat) (url : String) (cd now : Nat)
    (e : EndpointConfig) : ∀ left attempt (b : α),
    (tryEndpointLoop fp responses mr url cd now e attempt left).result = some b →
    (tryEndpointLoop fp responses mr url cd now e attempt left).endpoint =
      { e with cooldown_until := none } := by
  intro left
  induction left with
  | zero =>
    intro attempt b hres
    simp [tryEndpointLoop] at hres
  | succ left ih =>
    intro attempt b hres
    simp only [tryEndpointLoop] at hres ⊢
    cases hr : responses attempt with
    | ok body =>
      rw [hr] at hres
      dsimp only at hres ⊢
      by_cases hc : e.cooldown_until ≠ none
      · rw [if_pos hc]
        rfl
      · rw [if_neg hc]
        simp only [ne_eq, not_not] at hc
        cases e
        simp_all
    | httpErr status ra =>
      rw [hr] at hres
      dsimp only at hres ⊢
      by_cases h429 : status = 429
      · subst h429
        rw [if_pos rfl] at hres ⊢
        by_cases hlast : attempt < mr - 1
        · rw [if_pos hlast] at hres ⊢
          exact ih (attempt + 1) b hres
        · rw [if_neg hlast] at hres
          simp at hres
      · rw [if_neg h429] at hres
        simp at hres
    | netErr =>
      rw [hr] at hres
      dsimp only at hres ⊢
      by_cases hlast : attempt < mr - 1
      · rw [if_pos hlast] at hres ⊢
        exact ih (attempt + 1) b hres
      · rw [if_neg hlast] at hres
        simp at hres
    | otherErr =>
      rw [hr] at hres
      simp at hres

/-- A success body produced by the retry loop came from some attempt's 2xx
response. -/
theorem tryEndpointLoop_result_ok {α : Type} (fp : String → Option ℚ)
    (responses : Nat → HttpOut α) (mr : Nat) (url : String) (cd now : Nat)
    (e : EndpointConfig) : ∀ left attempt (b : α),
    (tryEndpointLoop fp responses mr url cd now e attempt left).result = some b →
    ∃ j, responses j = .ok b := by
  intro left
  induction left with
  | zero =>
    intro attempt b hres
    simp [tryEndpointLoop] at hres
  | succ left ih =>
    intro attempt b hres
    simp only [tryEndpointLoop] at hres
    cases hr : responses attempt with
    | ok body =>
      rw [hr] at hres
      dsimp only at hres
      simp only [Option.some.injEq] at hres
      subst hres
      exact ⟨attempt, hr⟩
    | httpErr status ra =>
      rw [hr] at hres
      dsimp only at hres
      by_cases h429 : status = 429
      · subst h429
        rw [if_pos rfl] at hres
        by_cases hlast : attempt < mr - 1
        · rw [if_pos hlast] at hres
          exact ih (attempt + 1) b hres
        · rw [if_neg hlast] at hres
          simp at hres
      · rw [if_neg h429] at hres
        simp at hres
    | netErr =>
      rw [hr] at hres
      dsimp only at hres
      by_cases hlast : attempt < mr - 1
      · rw [if_pos hlast] at hres
        exact ih (attempt + 1) b hres
      · rw [if_neg hlast] at hres
        simp at hres
    | otherErr =>
      rw [hr] at hres
      simp at hres

/-- Every request the retry loop issues has `timeout=30`. -/
theorem tryEndpointLoop_requests_timeout {α : Type} (fp : String → Option ℚ)
    (responses : Nat → HttpOut α) (mr : Nat) (url : String) (cd now : Nat)
    (e : EndpointConfig) : ∀ left attempt req,
    req ∈ (tryEndpointLoop fp responses mr url cd now e attempt left).requests →
    req.timeout = 30 := by
  intro left
  induction left with
  | zero =>
    intro attempt req hmem
    simp [tryEndpointLoop] at hmem
  | succ left ih =>
    intro attempt req hmem
    simp only [tryEndpointLoop] at hmem
    cases hr : responses attempt with
    | ok body =>
      rw [hr] at hmem
      simp at hmem
      subst hmem
      rfl
    | httpErr status ra =>
      rw [hr] at hmem
      dsimp only at hmem
      by_cases h429 : status = 429
      · subst h429
        rw [if_pos rfl] at hmem
        by_cases hlast : attempt < mr - 1
        · rw [if_pos hlast] at hmem
          simp only [List.mem_cons] at hmem
          cases hmem with
          | inl heq => subst heq; rfl
          | inr hmem => exact ih (attempt + 1) req hmem
        · rw [if_neg hlast] at hmem
          simp at hmem
          subst hmem
          rfl
      · rw [if_neg h429] at hmem
        simp at hmem
        subst hmem
        rfl
    | netErr =>
      rw [hr] at hmem
      dsimp only at hmem
      by_cases hlast : attempt < mr - 1
      · rw [if_pos hlast] at hmem
        simp only [List.mem_cons] at hmem
        cases hmem with
        | inl heq => subst heq; rfl
        | inr hmem => exact ih (attempt + 1) req hmem
      · rw [if_neg hlast] at hmem
        simp at hmem
        subst hmem
        rfl
    | otherErr =>
      rw [hr] at hmem
      simp at hmem
      subst hmem
      rfl
/-- Whatever the selection scan returns: an in-range index, and a client that
differs from the input at most in the rotation cursor (moved to that index). -/
theorem getNextAvailableEndpointAux_spec (now : Nat) (c : DOAIClient)
    (hlen : 0 < c.endpoints.length) : ∀ left i p,
    getNextAvailableEndpointAux now c i left = some p →
    p.1 < c.endpoints.length ∧
    p.2.endpoints = c.endpoints ∧
    p.2.max_tokens = c.max_tokens ∧
    p.2.enable_fallback = c.enable_fallback ∧
    p.2.endpoint_cooldown = c.endpoint_cooldown ∧
    p.2.fallback_counter = c.fallback_counter ∧
    p.2.sessions = c.sessions ∧
    (p.2.current_endpoint_index = c.current_endpoint_index ∨
      p.2.current_endpoint_index = p.1) := by
  intro left
  induction left with
  | zero =>
    intro i p h
    simp [getNextAvailableEndpointAux] at h
  | succ left ih =>
    intro i p h
    simp only [getNextAvailableEndpointAux] at h
    by_cases hav : (c.endpoints.getD ((c.current_endpoint_index + i) % c.endpoints.length)
        default).is_available now = true
    · rw [if_pos hav] at h
      simp only [Option.some.injEq] at h
      subst h
      by_cases hi : i > 0
      · rw [if_pos hi]
        exact ⟨Nat.mod_lt _ hlen, rfl, rfl, rfl, rfl, rfl, rfl, Or.inr rfl⟩
      · rw [if_neg hi]
        exact ⟨Nat.mod_lt _ hlen, rfl, rfl, rfl, rfl, rfl, rfl, Or.inl rfl⟩
    · rw [if_neg hav] at h
      exact ih (i + 1) p h

/-- `getNextAvailableEndpointAux_spec` lifted to `_get_next_available_endpoint`. -/
theorem getNextAvailableEndpoint_spec (now : Nat) (c : DOAIClient)
    (p : Nat × DOAIClient) (h : c.getNextAvailableEndpoint now = some p) :
    p.1 < c.endpoints.length ∧
    p.2.endpoints = c.endpoints ∧
    p.2.max_tokens = c.max_tokens ∧
    p.2.enable_fallback = c.enable_fallback ∧
    p.2.endpoint_cooldown = c.endpoint_cooldown ∧
    p.2.fallback_counter = c.fallback_counter ∧
    p.2.sessions = c.sessions ∧
    (p.2.current_endpoint_index = c.current_endpoint_index ∨
      p.2.current_endpoint_index = p.1) := by
  have hlen : 0 < c.endpoints.length := by
    by_contra hl
    have h0 : c.endpoints.length = 0 := by omega
    unfold DOAIClient.getNextAvailableEndpoint at h
    rw [h0] at h
    simp [getNextAvailableEndpointAux] at h
  exact getNextAvailableEndpointAux_spec now c hlen c.endpoints.length 0 p h

/-- When the endpoint at the cursor itself is available, the scan returns it
at once and moves nothing. -/
theorem getNextAvailableEndpoint_cursor_hit (now : Nat) (c : DOAIClient)
    (h : c.current_endpoint_index < c.endpoints.length)
    (ha : (c.endpoints.getD c.current_endpoint_index default).is_available now = true) :
    c.getNextAvailableEndpoint now = some (c.current_endpoint_index, c) := by
  unfold DOAIClient.getNextAvailableEndpoint
  obtain ⟨m, hm⟩ : ∃ m, c.endpoints.length = m + 1 := ⟨c.endpoints.length - 1, by omega⟩
  rw [hm]
  simp only [getNextAvailableEndpointAux]
  rw [Nat.add_zero, Nat.mod_eq_of_lt h]
  rw [if_pos ha]
  simp

/-- The scan succeeds whenever some position it will visit is available. -/
theorem getNextAvailableEndpointAux_some_of_avail (now : Nat) (c : DOAIClient) :
    ∀ left i, i + left = c.endpoints.length →
    (∃ kk, i ≤ kk ∧ kk < c.endpoints.length ∧
      (c.endpoints.getD ((c.current_endpoint_index + kk) % c.endpoints.length)
        default).is_available now = true) →
    ∃ p, getNextAvailableEndpointAux now c i left = some p := by
  intro left
  induction left with
  | zero =>
    intro i hi hex
    obtain ⟨kk, h1, h2, _⟩ := hex
    omega
  | succ left ih =>
    intro i hi hex
    obtain ⟨kk, hik, hkl, hkav⟩ := hex
    simp only [getNextAvailableEndpointAux]
    by_cases hav : (c.endpoints.getD ((c.current_endpoint_index + i) % c.endpoints.length)
        default).is_available now = true
    · rw [if_pos hav]
      exact ⟨_, rfl⟩
    · rw [if_neg hav]
      have hki : kk ≠ i := fun he => hav (he ▸ hkav)
      exact ih (i + 1) (by omega) ⟨kk, by omega, hkl, hkav⟩

/-- Some scan offset lands on any given available endpoint. -/
theorem exists_scan_hit (now : Nat) (c : DOAIClient)
    (hcur : c.current_endpoint_index < c.endpoints.length)
    (h : ∃ e ∈ c.endpoints, e.is_available now = true) :
    ∃ kk, 0 ≤ kk ∧ kk < c.endpoints.length ∧
      (c.endpoints.getD ((c.current_endpoint_index + kk) % c.endpoints.length)
        default).is_available now = true := by
  obtain ⟨e, hmem, hav⟩ := h
  obtain ⟨j, hj, hje⟩ := List.mem_iff_getElem.mp hmem
  have hlen : 0 < c.endpoints.length := by omega
  refine ⟨(j + c.endpoints.length - c.current_endpoint_index) % c.endpoints.length,
    Nat.zero_le _, Nat.mod_lt _ hlen, ?_⟩
  have harith : (c.current_endpoint_index +
      (j + c.endpoints.length - c.current_endpoint_index) % c.endpoints.length) %
      c.endpoints.length = j := by
    rw [Nat.add_mod_mod]
    have hsum : c.current_endpoint_index +
        (j + c.endpoints.length - c.current_endpoint_index) = j + c.endpoints.length := by
      omega
    rw [hsum, Nat.add_mod_right, Nat.mod_eq_of_lt hj]
  rw [harith]
  rw [List.getD_eq_getElem?_getD, List.getElem?_eq_getElem hj]
  simpa [hje]

/-- A successful `_try_endpoint_request` is the retry loop run on the
endpoint's chat or image URL. -/
theorem tryEndpointRequest_ok {α : Type} (fp : String → Option ℚ)
    (responses : Nat → HttpOut α) (sessions : List String)
    (e : EndpointConfig) (path : String) (cd now mr : Nat)
    (ar : AttemptResult α)
    (h : tryEndpointRequest fp responses sessions e path cd now mr = .ok ar) :
    ar = tryEndpointLoop fp responses mr (e.base_url ++ path) cd now e 0 mr := by
  unfold tryEndpointRequest at h
  by_cases hmem : e.name ∈ sessions
  · rw [if_pos hmem] at h
    cases h
    rfl
  · rw [if_neg hmem] at h
    cases h

/-- The post-loop tail of the chat call leaves trace, requests, endpoints and
cursor untouched, and yields no text when fallback is disabled. -/
theorem finishChat_fields (c : DOAIClient) :
    (finishChat c).trace = [] ∧ (finishChat c).requests = [] ∧
    (finishChat c).client.endpoints = c.endpoints ∧
    (finishChat c).client.current_endpoint_index = c.current_endpoint_index ∧
    (c.enable_fallback = false → (finishChat c).response = none) := by
  by_cases h : c.enable_fallback <;>
    simp [finishChat, DOAIClient.getFallbackResponse, h]
/-- Invariants of one full chat call: at most `fuel` endpoint attempts, all
requests with `timeout=30`, endpoint-list length preserved and cursor kept in
range. -/
theorem chatLoopAux_invariants (fp : String → Option ℚ)
    (env : Nat → Nat → HttpOut ChatBody) (now : Nat) :
    ∀ fuel k c r, c.current_endpoint_index < c.endpoints.length →
      chatLoopAux fp env now k fuel c = .ok r →
      r.trace.length ≤ fuel ∧
      (∀ q ∈ r.requests, q.timeout = 30) ∧
      r.client.endpoints.length = c.endpoints.length ∧
      r.client.current_endpoint_index < r.client.endpoints.length := by
  intro fuel
  induction fuel with
  | zero =>
    intro k c r hcur h
    simp only [chatLoopAux] at h
    cases h
    obtain ⟨h1, h2, h3, h4, _⟩ := finishChat_fields c
    refine ⟨by simp [h1], by simp [h2], by simp [h3], ?_⟩
    rw [h3, h4]
    exact hcur
  | succ fuel ih =>
    intro k c r hcur h
    simp only [chatLoopAux] at h
    cases hsel : c.getNextAvailableEndpoint now with
    | none =>
      rw [hsel] at h
      cases h
      obtain ⟨h1, h2, h3, h4, _⟩ := finishChat_fields c
      refine ⟨by simp [h1], by simp [h2], by simp [h3], ?_⟩
      rw [h3, h4]
      exact hcur
    | some p =>
      obtain ⟨idx, c1⟩ := p
      obtain ⟨hidx, hends, _, _, _, _, hsess, hcur1⟩ :=
        getNextAvailableEndpoint_spec now c (idx, c1) hsel
      rw [hsel] at h
      dsimp only at h
      cases htr : tryEndpointRequest fp (env k) c1.sessions
          (c1.endpoints.getD idx default) "/chat/completions"
          c1.endpoint_cooldown now 3 with
      | error e =>
        rw [htr] at h
        simp at h
      | ok ar =>
        rw [htr] at h
        dsimp only at h
        have harval := tryEndpointRequest_ok fp (env k) c1.sessions
          (c1.endpoints.getD idx default) "/chat/completions"
          c1.endpoint_cooldown now 3 ar htr
        have hartime : ∀ q ∈ ar.requests, q.timeout = 30 := by
          rw [harval]
          exact fun q => tryEndpointLoop_requests_timeout fp (env k) 3 _
            c1.endpoint_cooldown now _ 3 0 q
        have hc1len : c1.endpoints.length = c.endpoints.length := by rw [hends]
        have hcur1lt : c1.current_endpoint_index < c1.endpoints.length := by
          cases hcur1 with
          | inl heq => rw [heq, hc1len]; exact hcur
          | inr heq => rw [heq, hc1len]; exact hidx
        cases har : ar.result with
        | some body =>
          rw [har] at h
          dsimp only at h
          cases hex : extractChatText body with
          | some s =>
            rw [hex] at h
            cases h
            refine ⟨by simp, hartime, by simp [hc1len], ?_⟩
            simpa [hc1len] using hcur1lt
          | none =>
            rw [hex] at h
            dsimp only at h
            split at h
            · exact absurd h (by simp)
            · rename_i r' hrec
              simp only [Except.ok.injEq] at h
              obtain ⟨ih1, ih2, ih3, ih4⟩ := ih (k + 1) _ r'
                (by simp; exact Nat.mod_lt _ (by simp [hc1len]; omega)) hrec
              subst h
              refine ⟨by simpa using ih1, ?_, ?_, ih4⟩
              · intro q hq
                rcases List.mem_append.mp hq with hq | hq
                · exact hartime q hq
                · exact ih2 q hq
              · dsimp only
                simp only [List.length_set] at ih3
                simp [ih3, hc1len]
        | none =>
          rw [har] at h
          dsimp only at h
          split at h
          · exact absurd h (by simp)
          · rename_i r' hrec
            simp only [Except.ok.injEq] at h
            obtain ⟨ih1, ih2, ih3, ih4⟩ := ih (k + 1) _ r'
              (by simp; exact Nat.mod_lt _ (by simp [hc1len]; omega)) hrec
            subst h
            refine ⟨by simpa using ih1, ?_, ?_, ih4⟩
            · intro q hq
              rcases List.mem_append.mp hq with hq | hq
              · exact hartime q hq
              · exact ih2 q hq
            · dsimp only
              simp only [List.length_set] at ih3
              simp [ih3, hc1len]
/-- Invariants of one full image call, as for the chat call. -/
theorem imageLoopAux_invariants (fp : String → Option ℚ)
    (env : Nat → Nat → HttpOut ImageBody) (dl : Nat → DownloadOut)
    (b64 : String → Except Unit (List Nat)) (now : Nat) :
    ∀ fuel k c r, c.current_endpoint_index < c.endpoints.length →
      imageLoopAux fp env dl b64 now k fuel c = .ok r →
      r.trace.length ≤ fuel ∧
      (∀ q ∈ r.requests, q.timeout = 30) ∧
      r.client.endpoints.length = c.endpoints.length ∧
      r.client.current_endpoint_index < r.client.endpoints.length := by
  intro fuel
  induction fuel with
  | zero =>
    intro k c r hcur h
    simp only [imageLoopAux] at h
    cases h
    exact ⟨by simp, by simp, rfl, hcur⟩
  | succ fuel ih =>
    intro k c r hcur h
    simp only [imageLoopAux] at h
    cases hsel : c.getNextAvailableEndpoint now with
    | none =>
      rw [hsel] at h
      cases h
      exact ⟨by simp, by simp, rfl, hcur⟩
    | some p =>
      obtain ⟨idx, c1⟩ := p
      obtain ⟨hidx, hends, _, _, _, _, hsess, hcur1⟩ :=
        getNextAvailableEndpoint_spec now c (idx, c1) hsel
      rw [hsel] at h
      dsimp only at h
      cases htr : tryEndpointRequest fp (env k) c1.sessions
          (c1.endpoints.getD idx default) "/images/generations"
          c1.endpoint_cooldown now 2 with
      | error e =>
        rw [htr] at h
        simp at h
      | ok ar =>
        rw [htr] at h
        dsimp only at h
        have harval := tryEndpointRequest_ok fp (env k) c1.sessions
          (c1.endpoints.getD idx default) "/images/generations"
          c1.endpoint_cooldown now 2 ar htr
        have hartime : ∀ q ∈ ar.requests, q.timeout = 30 := by
          rw [harval]
          exact fun q => tryEndpointLoop_requests_timeout fp (env k) 2 _
            c1.endpoint_cooldown now _ 2 0 q
        have hc1len : c1.endpoints.length = c.endpoints.length := by rw [hends]
        have hcur1lt : c1.current_endpoint_index < c1.endpoints.length := by
          cases hcur1 with
          | inl heq => rw [heq, hc1len]; exact hcur
          | inr heq => rw [heq, hc1len]; exact hidx
        have hfailgoal : ∀ r', imageLoopAux fp env dl b64 now (k + 1) fuel
              { endpoints := c1.endpoints.set idx ar.endpoint,
                max_tokens := c1.max_tokens,
                enable_fallback := c1.enable_fallback,
                endpoint_cooldown := c1.endpoint_cooldown,
                fallback_counter := c1.fallback_counter,
                current_endpoint_index := (c1.current_endpoint_index + 1) %
                  (c1.endpoints.set idx ar.endpoint).length,
                sessions := c1.sessions } = .ok r' →
            r = ⟨r'.response, r'.client, idx :: r'.trace,
                ar.requests ++ r'.requests, ar.sleeps ++ r'.sleeps⟩ →
            r.trace.length ≤ fuel + 1 ∧
            (∀ q ∈ r.requests, q.timeout = 30) ∧
            r.client.endpoints.length = c.endpoints.length ∧
            r.client.current_endpoint_index < r.client.endpoints.length := by
          intro r' hrec hr
          obtain ⟨ih1, ih2, ih3, ih4⟩ := ih (k + 1) _ r'
            (by simp; exact Nat.mod_lt _ (by simp [hc1len]; omega)) hrec
          subst hr
          refine ⟨by simpa using ih1, ?_, ?_, ih4⟩
          · intro q hq
            rcases List.mem_append.mp hq with hq | hq
            · exact hartime q hq
            · exact ih2 q hq
          · dsimp only
            simp only [List.length_set] at ih3
            simp [ih3, hc1len]
        cases har : ar.result with
        | some body =>
          rw [har] at h
          dsimp only at h
          cases hdata : body.data.head? with
          | some item =>
            rw [hdata] at h
            dsimp only at h
            cases hb64 : item.b64_json with
            | some image_data =>
              rw [hb64] at h
              dsimp only at h
              cases hstrip : stripImagePrefix image_data with
              | error e =>
                rw [hstrip] at h
                simp at h
              | ok stripped =>
                rw [hstrip] at h
                dsimp only at h
                cases hdec : b64 stripped with
                | error u =>
                  rw [hdec] at h
                  simp at h
                | ok bytes =>
                  rw [hdec] at h
                  cases h
                  refine ⟨by simp, hartime, by simp [hc1len], ?_⟩
                  simpa [hc1len] using hcur1lt
            | none =>
              rw [hb64] at h
              dsimp only at h
              cases hurl : item.url with
              | some u =>
                rw [hurl] at h
                dsimp only at h
                split at h
                · cases hdl : dl k with
                  | raised e =>
                    rw [hdl] at h
                    simp at h
                  | ok content =>
                    rw [hdl] at h
                    cases h
                    refine ⟨by simp, ?_, by simp [hc1len], ?_⟩
                    · intro q hq
                      rcases List.mem_append.mp hq with hq | hq
                      · exact hartime q hq
                      · simp at hq
                        subst hq
                        rfl
                    · simpa [hc1len] using hcur1lt
                · simp at h
              | none =>
                rw [hurl] at h
                dsimp only at h
                split at h
                · exact absurd h (by simp)
                · rename_i r' hrec
                  simp only [Except.ok.injEq] at h
                  exact hfailgoal r' hrec h.symm
          | none =>
            rw [hdata] at h
            dsimp only at h
            split at h
            · exact absurd h (by simp)
            · rename_i r' hrec
              simp only [Except.ok.injEq] at h
              exact hfailgoal r' hrec h.symm
        | none =>
          rw [har] at h
          dsimp only at h
          split at h
          · exact absurd h (by simp)
          · rename_i r' hrec
            simp only [Except.ok.injEq] at h
            exact hfailgoal r' hrec h.symm
/-! Claim theorems about the two façade calls. -/

/-- C3: `generate_image` is specified never to propagate an exception; in
fact a success body whose `data[0].b64_json` is `"data:image"` (the prefix
marker with no comma after it) makes `split(',', 1)[1]` raise `IndexError`,
and a failed download of `data[0].url` propagates the `raise_for_status`
exception — both escape to the caller instead of the documented `None`. -/
theorem generate_image_raises_on_malformed :
    DOAIClient.generate_image fp0 envImgNoComma dl0 b640 0 clA =
      .error PyError.indexError ∧
    DOAIClient.generate_image fp0 envImgUrl dlFail b640 0 clA =
      .error (PyError.httpStatusError 500) :=
  ⟨rfl, rfl⟩

/-- C4 counterexample: a concrete image-generation call issues its POST with
`timeout=30`, not the claimed 60. -/
theorem image_timeout_sixty_counterexample :
    (DOAIClient.generate_image fp0 envImg500 dl0 b640 0 clA).map ImageCallResult.requests
      = .ok [⟨"https://a/images/generations", 30⟩] ∧ (30 : Nat) ≠ 60 :=
  ⟨rfl, by decide⟩

/-- C4 (amended): every HTTP request issued on the chat path and on the
image-generation path (the POSTs, and the image URL download GET) uses a
fixed per-call timeout of 30 time units; the image path does not use 60. -/
theorem http_timeout_spec :
    (∀ (fp : String → Option ℚ) (env : Nat → Nat → HttpOut ChatBody) (now : Nat)
      (c : DOAIClient) (r : ChatCallResult),
      c.current_endpoint_index < c.endpoints.length →
      DOAIClient.generate_chat_response fp env now c = .ok r →
      ∀ q ∈ r.requests, q.timeout = 30) ∧
    (∀ (fp : String → Option ℚ) (env : Nat → Nat → HttpOut ImageBody)
      (dl : Nat → DownloadOut) (b64 : String → Except Unit (List Nat)) (now : Nat)
      (c : DOAIClient) (r : ImageCallResult),
      c.current_endpoint_index < c.endpoints.length →
      DOAIClient.generate_image fp env dl b64 now c = .ok r →
      ∀ q ∈ r.requests, q.timeout = 30) :=
  ⟨fun fp env now c r hcur hok =>
    (chatLoopAux_invariants fp env now c.endpoints.length 0 c r hcur hok).2.1,
   fun fp env dl b64 now c r hcur hok =>
    (imageLoopAux_invariants fp env dl b64 now c.endpoints.length 0 c r hcur hok).2.1⟩

theorem http_timeout_spec_witness :
    HttpRequest.timeout ⟨"https://a/chat/completions", 30⟩ = 30 :=
  http_timeout_spec.1 fp0 env500 0 clA chatResA (by decide) rfl
    ⟨"https://a/chat/completions", 30⟩ (by decide)

/-- C8: a 2xx success through endpoint E leaves E exactly as it was except
for the cleared `cooldown_until`, and the client's endpoint-list update
writes only E's slot: every other endpoint is untouched. -/
theorem success_clears_only_own_cooldown :
    (∀ (α : Type) (fp : String → Option ℚ) (responses : Nat → HttpOut α)
      (mr : Nat) (url : String) (cd now : Nat) (e : EndpointConfig)
      (left attempt : Nat) (b : α),
      (tryEndpointLoop fp responses mr url cd now e attempt left).result = some b →
      (tryEndpointLoop fp responses mr url cd now e attempt left).endpoint =
        { e with cooldown_until := none }) ∧
    (∀ (c : DOAIClient) (idx : Nat) (e2 : EndpointConfig) (j : Nat), j ≠ idx →
      ({ c with endpoints := c.endpoints.set idx e2 } : DOAIClient).endpoints.getD j default =
        c.endpoints.getD j default) := by
  refine ⟨?_, ?_⟩
  · intro α fp responses mr url cd now e left attempt b h
    exact tryEndpointLoop_success_endpoint fp responses mr url cd now e left attempt b h
  · intro c idx e2 j hne
    dsimp only
    rw [List.getD_eq_getElem?_getD, List.getD_eq_getElem?_getD,
      List.getElem?_set_ne (by omega)]

theorem success_clears_only_own_cooldown_witness :
    (tryEndpointLoop fp0 (fun _ => HttpOut.ok (0 : Nat)) 3 "u" 300 0 epB 0 3).endpoint =
      { epB with cooldown_until := none } :=
  success_clears_only_own_cooldown.1 Nat fp0 (fun _ => HttpOut.ok 0) 3 "u" 300 0 epB 3 0 0 rfl

/-- C9: the rotation cursor always lies in `[0, len(endpoints))`: it is 0 at
construction (which demands a non-empty endpoint list), endpoint selection
keeps it in range, and full `generate_chat_response` / `generate_image`
calls preserve the invariant. -/
theorem rotation_cursor_invariant :
    (∀ (endpoints : List EndpointConfig) (mt : Nat) (ef : Bool) (cd : Nat)
      (c : DOAIClient), DOAIClient.init endpoints mt ef cd = some c →
      c.current_endpoint_index < c.endpoints.length) ∧
    (∀ (now : Nat) (c : DOAIClient) (p : Nat × DOAIClient),
      c.current_endpoint_index < c.endpoints.length →
      c.getNextAvailableEndpoint now = some p →
      p.2.current_endpoint_index < p.2.endpoints.length) ∧
    (∀ (fp : String → Option ℚ) (env : Nat → Nat → HttpOut ChatBody) (now : Nat)
      (c : DOAIClient) (r : ChatCallResult),
      c.current_endpoint_index < c.endpoints.length →
      DOAIClient.generate_chat_response fp env now c = .ok r →
      r.client.current_endpoint_index < r.client.endpoints.length) ∧
    (∀ (fp : String → Option ℚ) (env : Nat → Nat → HttpOut ImageBody)
      (dl : Nat → DownloadOut) (b64 : String → Except Unit (List Nat)) (now : Nat)
      (c : DOAIClient) (r : ImageCallResult),
      c.current_endpoint_index < c.endpoints.length →
      DOAIClient.generate_image fp env dl b64 now c = .ok r →
      r.client.current_endpoint_index < r.client.endpoints.length) := by
  refine ⟨?_, ?_, ?_, ?_⟩
  · intro endpoints mt ef cd c hinit
    unfold DOAIClient.init at hinit
    by_cases he : endpoints.isEmpty
    · rw [if_pos he] at hinit
      cases hinit
    · rw [if_neg he] at hinit
      cases hinit
      have hne : endpoints ≠ [] := by simpa [List.isEmpty_iff] using he
      simpa using List.length_pos.mpr hne
  · intro now c p hcur hsel
    obtain ⟨h1, h2, _, _, _, _, _, hc⟩ := getNextAvailableEndpoint_spec now c p hsel
    cases hc with
    | inl heq => rw [heq, h2]; exact hcur
    | inr heq => rw [heq, h2]; exact h1
  · intro fp env now c r hcur hok
    exact (chatLoopAux_invariants fp env now c.endpoints.length 0 c r hcur hok).2.2.2
  · intro fp env dl b64 now c r hcur hok
    exact (imageLoopAux_invariants fp env dl b64 now c.endpoints.length 0 c r hcur hok).2.2.2

theorem rotation_cursor_invariant_witness :
    clA.current_endpoint_index < clA.endpoints.length ∧
    cl2.current_endpoint_index < cl2.endpoints.length ∧
    chatResA.client.current_endpoint_index < chatResA.client.endpoints.length :=
  ⟨rotation_cursor_invariant.1 [epA] 400 true 300 clA rfl,
   rotation_cursor_invariant.2.1 0 cl2 (0, cl2) (by decide) rfl,
   rotation_cursor_invariant.2.2.1 fp0 env500 0 clA chatResA (by decide) rfl⟩
/-- Advancing the cursor by one and scanning `i` further lands where scanning
`i + 1` from the old cursor would. -/
theorem scan_index_step (cursor i len : Nat) :
    (((cursor + 1) % len) + i) % len = (cursor + (i + 1)) % len := by
  rw [Nat.mod_add_mod]
  exact congrArg (fun t => t % len) (by omega)

/-- A positive scan offset below `len` never lands back on the cursor. -/
theorem scan_index_ne (cursor t len : Nat) (hc : cursor < len) (ht1 : 0 < t)
    (ht2 : t < len) : (cursor + t) % len ≠ cursor := by
  intro he
  rcases Nat.lt_or_ge (cursor + t) len with hl | hl
  · rw [Nat.mod_eq_of_lt hl] at he
    omega
  · have h2 : cursor + t - len < len := by omega
    rw [Nat.mod_eq_sub_mod hl, Nat.mod_eq_of_lt h2] at he
    omega

/-- The first `fuel ≤ len` positions the failover scan visits are pairwise
distinct. -/
theorem scan_targets_nodup (cursor len fuel : Nat) (hf : fuel ≤ len) :
    ((List.range fuel).map (fun i => (cursor + i) % len)).Nodup := by
  refine List.Nodup.map_on ?_ (List.nodup_range fuel)
  intro x hx y hy hxy
  simp only [List.mem_range] at hx hy
  have hmod : x % len = y % len := Nat.ModEq.add_left_cancel' cursor hxy
  rw [Nat.mod_eq_of_lt (by omega), Nat.mod_eq_of_lt (by omega)] at hmod
  exact hmod

/-- With every scanned position available, the chat loop's trace is a prefix
of the scan sequence `cursor, cursor+1, ...` (mod the endpoint count). -/
theorem chatLoopAux_trace_prefix (fp : String → Option ℚ)
    (env : Nat → Nat → HttpOut ChatBody) (now : Nat) :
    ∀ fuel k c r, c.current_endpoint_index < c.endpoints.length →
      fuel ≤ c.endpoints.length →
      (∀ i, i < fuel →
        (c.endpoints.getD ((c.current_endpoint_index + i) % c.endpoints.length)
          default).is_available now = true) →
      chatLoopAux fp env now k fuel c = .ok r →
      r.trace <+: (List.range fuel).map
        (fun i => (c.current_endpoint_index + i) % c.endpoints.length) := by
  intro fuel
  induction fuel with
  | zero =>
    intro k c r hcur hfl hav h
    simp only [chatLoopAux] at h
    cases h
    simp [(finishChat_fields c).1]
  | succ fuel ih =>
    intro k c r hcur hfl hav h
    have hlen : 0 < c.endpoints.length := by omega
    have hav0 : (c.endpoints.getD c.current_endpoint_index default).is_available now
        = true := by
      have h0 := hav 0 (by omega)
      rwa [Nat.add_zero, Nat.mod_eq_of_lt hcur] at h0
    have hsel : c.getNextAvailableEndpoint now = some (c.current_endpoint_index, c) :=
      getNextAvailableEndpoint_cursor_hit now c hcur hav0
    simp only [chatLoopAux] at h
    rw [hsel] at h
    dsimp only at h
    have htarget : (List.range (fuel + 1)).map
        (fun i => (c.current_endpoint_index + i) % c.endpoints.length) =
        c.current_endpoint_index ::
          (List.range fuel).map
            (fun i => (c.current_endpoint_index + (i + 1)) % c.endpoints.length) := by
      rw [List.range_succ_eq_map, List.map_cons, List.map_map]
      congr 1
      rw [Nat.add_zero, Nat.mod_eq_of_lt hcur]
    rw [htarget]
    cases htr : tryEndpointRequest fp (env k) c.sessions
        (c.endpoints.getD c.current_endpoint_index default) "/chat/completions"
        c.endpoint_cooldown now 3 with
    | error e =>
      rw [htr] at h
      simp at h
    | ok ar =>
      rw [htr] at h
      dsimp only at h
      have hfail : ∀ r', chatLoopAux fp env now (k + 1) fuel
            { endpoints := c.endpoints.set c.current_endpoint_index ar.endpoint,
              max_tokens := c.max_tokens,
              enable_fallback := c.enable_fallback,
              endpoint_cooldown := c.endpoint_cooldown,
              fallback_counter := c.fallback_counter,
              current_endpoint_index := (c.current_endpoint_index + 1) %
                (c.endpoints.set c.current_endpoint_index ar.endpoint).length,
              sessions := c.sessions } = .ok r' →
          r = ⟨r'.response, r'.client, c.current_endpoint_index :: r'.trace,
              ar.requests ++ r'.requests, ar.sleeps ++ r'.sleeps⟩ →
          r.trace <+: c.current_endpoint_index ::
            (List.range fuel).map
              (fun i => (c.current_endpoint_index + (i + 1)) % c.endpoints.length) := by
        intro r' hrec hr
        have hsetlen : (c.endpoints.set c.current_endpoint_index ar.endpoint).length
            = c.endpoints.length := by simp
        have hpre := ih (k + 1) _ r'
          (by simp; exact Nat.mod_lt _ (by omega))
          (by simp; omega)
          ?_ hrec
        · subst hr
          dsimp only
          refine List.cons_prefix_cons.mpr ⟨rfl, ?_⟩
          have hpre2 : r'.trace <+: (List.range fuel).map
              (fun i => (c.current_endpoint_index + 1 + i) % c.endpoints.length) := by
            simpa using hpre
          have hmapeq2 : (List.range fuel).map
              (fun i => (c.current_endpoint_index + 1 + i) % c.endpoints.length) =
              (List.range fuel).map
                (fun i => (c.current_endpoint_index + (i + 1)) % c.endpoints.length) :=
            List.map_congr_left (fun i _ =>
              congrArg (fun t => t % c.endpoints.length) (by omega))
          rw [hmapeq2] at hpre2
          exact hpre2
        · intro i hi
          dsimp only
          have hne : ((c.current_endpoint_index + 1) %
              (c.endpoints.set c.current_endpoint_index ar.endpoint).length + i) %
              (c.endpoints.set c.current_endpoint_index ar.endpoint).length ≠
              c.current_endpoint_index := by
            rw [hsetlen, scan_index_step]
            exact scan_index_ne c.current_endpoint_index (i + 1) c.endpoints.length
              hcur (by omega) (by omega)
          rw [List.getD_eq_getElem?_getD, List.getElem?_set_ne (Ne.symm hne),
            ← List.getD_eq_getElem?_getD]
          rw [hsetlen, scan_index_step]
          exact hav (i + 1) (by omega)
      cases har : ar.result with
      | some body =>
        rw [har] at h
        dsimp only at h
        cases hex : extractChatText body with
        | some s =>
          rw [hex] at h
          cases h
          exact List.cons_prefix_cons.mpr ⟨rfl, List.nil_prefix⟩
        | none =>
          rw [hex] at h
          dsimp only at h
          split at h
          · exact absurd h (by simp)
          · rename_i r' hrec
            simp only [Except.ok.injEq] at h
            exact hfail r' hrec h.symm
      | none =>
        rw [har] at h
        dsimp only at h
        split at h
        · exact absurd h (by simp)
        · rename_i r' hrec
          simp only [Except.ok.injEq] at h
          exact hfail r' hrec h.symm
/-- C1 counterexample: with endpoint B (index 1) in cooldown and endpoint A
(index 0) failing with HTTP 500, one `generate_chat_response` call invokes
`_try_endpoint_request` on endpoint A twice — the scan wraps around past the
cooling endpoint back to the one already tried. -/
theorem chat_failover_single_use_counterexample :
    (DOAIClient.generate_chat_response fp0 env500 0 cl2).map ChatCallResult.trace
      = .ok [0, 0] ∧
    ([0, 0] : List Nat).count 0 = 2 ∧ cl2.endpoints.length = 2 :=
  ⟨rfl, rfl, rfl⟩

/-- C1 (amended): one `generate_chat_response` call performs at most
`len(endpoints)` endpoint attempts in total, and when every endpoint is
available at the start of the call each endpoint is attempted at most once;
with some endpoints in cooldown, an available endpoint can be attempted more
than once. -/
theorem chat_failover_attempt_bounds (fp : String → Option ℚ)
    (env : Nat → Nat → HttpOut ChatBody) (now : Nat) (c : DOAIClient)
    (r : ChatCallResult) (hcur : c.current_endpoint_index < c.endpoints.length)
    (hok : DOAIClient.generate_chat_response fp env now c = .ok r) :
    r.trace.length ≤ c.endpoints.length ∧
    ((∀ e ∈ c.endpoints, e.is_available now = true) → r.trace.Nodup) := by
  refine ⟨(chatLoopAux_invariants fp env now c.endpoints.length 0 c r hcur hok).1,
    fun hall => ?_⟩
  have hava : ∀ i, i < c.endpoints.length →
      (c.endpoints.getD ((c.current_endpoint_index + i) % c.endpoints.length)
        default).is_available now = true := by
    intro i hi
    have hlt : (c.current_endpoint_index + i) % c.endpoints.length <
        c.endpoints.length := Nat.mod_lt _ (by omega)
    rw [List.getD_eq_getElem?_getD, List.getElem?_eq_getElem hlt]
    exact hall _ (List.getElem_mem hlt)
  have hpre := chatLoopAux_trace_prefix fp env now c.endpoints.length 0 c r hcur
    (le_refl _) hava hok
  exact hpre.sublist.nodup
    (scan_targets_nodup c.current_endpoint_index c.endpoints.length
      c.endpoints.length (le_refl _))

theorem chat_failover_attempt_bounds_witness :
    chatResA.trace.length ≤ clA.endpoints.length ∧ chatResA.trace.Nodup := by
  have h := chat_failover_attempt_bounds fp0 env500 0 clA chatResA (by decide) rfl
  exact ⟨h.1, h.2 (by decide)⟩
/-- In-range `getD` values are members of the list. -/
theorem getD_mem (l : List EndpointConfig) (i : Nat) (h : i < l.length) :
    l.getD i default ∈ l := by
  rw [List.getD_eq_getElem?_getD, List.getElem?_eq_getElem h]
  exact List.getElem_mem h

/-- While every endpoint name has a session, the chat loop never raises. -/
theorem chatLoopAux_no_error (fp : String → Option ℚ)
    (env : Nat → Nat → HttpOut ChatBody) (now : Nat) :
    ∀ fuel k c, (∀ e ∈ c.endpoints, e.name ∈ c.sessions) →
      ∀ err, chatLoopAux fp env now k fuel c ≠ .error err := by
  intro fuel
  induction fuel with
  | zero =>
    intro k c hs err h
    simp [chatLoopAux] at h
  | succ fuel ih =>
    intro k c hs err h
    simp only [chatLoopAux] at h
    cases hsel : c.getNextAvailableEndpoint now with
    | none =>
      rw [hsel] at h
      simp at h
    | some p =>
      obtain ⟨idx, c1⟩ := p
      obtain ⟨hidx, hends, _, _, _, _, hsess, _⟩ :=
        getNextAvailableEndpoint_spec now c (idx, c1) hsel
      rw [hsel] at h
      dsimp only at h
      have hidx1 : idx < c1.endpoints.length := by rw [hends]; exact hidx
      have hmem : (c1.endpoints.getD idx default).name ∈ c1.sessions := by
        rw [hsess]
        apply hs
        rw [← hends]
        exact getD_mem c1.endpoints idx hidx1
      cases htr : tryEndpointRequest fp (env k) c1.sessions
          (c1.endpoints.getD idx default) "/chat/completions"
          c1.endpoint_cooldown now 3 with
      | error e =>
        unfold tryEndpointRequest at htr
        rw [if_pos hmem] at htr
        cases htr
      | ok ar =>
        rw [htr] at h
        dsimp only at h
        have harval := tryEndpointRequest_ok fp (env k) c1.sessions
          (c1.endpoints.getD idx default) "/chat/completions"
          c1.endpoint_cooldown now 3 ar htr
        have hs3 : ∀ e2 ∈ c1.endpoints.set idx ar.endpoint, e2.name ∈ c1.sessions := by
          intro e2 he2
          rcases List.mem_or_eq_of_mem_set he2 with he2 | he2
          · rw [hsess]
            apply hs
            rw [← hends]
            exact he2
          · subst he2
            have hname : ar.endpoint.name = (c1.endpoints.getD idx default).name := by
              rw [harval]
              exact tryEndpointLoop_endpoint_name fp (env k) 3 _
                c1.endpoint_cooldown now _ 3 0
            rw [hname]
            exact hmem
        cases har : ar.result with
        | some body =>
          rw [har] at h
          dsimp only at h
          cases hex : extractChatText body with
          | some s =>
            rw [hex] at h
            cases h
          | none =>
            rw [hex] at h
            dsimp only at h
            split at h
            · rename_i e0 hrec
              exact ih (k + 1) _ (by dsimp only; exact hs3) e0 hrec
            · exact absurd h (by simp)
        | none =>
          rw [har] at h
          dsimp only at h
          split at h
          · rename_i e0 hrec
            exact ih (k + 1) _ (by dsimp only; exact hs3) e0 hrec
          · exact absurd h (by simp)

/-- With fallback disabled, a chat loop in which every 2xx body has a format
error ends with no answer. -/
theorem chatLoopAux_badformat_none (fp : String → Option ℚ)
    (env : Nat → Nat → HttpOut ChatBody) (now : Nat)
    (hb : ∀ k j b, env k j = HttpOut.ok b → extractChatText b = none) :
    ∀ fuel k c r, c.enable_fallback = false →
      chatLoopAux fp env now k fuel c = .ok r → r.response = none := by
  intro fuel
  induction fuel with
  | zero =>
    intro k c r hf h
    simp only [chatLoopAux] at h
    cases h
    exact (finishChat_fields c).2.2.2.2 hf
  | succ fuel ih =>
    intro k c r hf h
    simp only [chatLoopAux] at h
    cases hsel : c.getNextAvailableEndpoint now with
    | none =>
      rw [hsel] at h
      cases h
      exact (finishChat_fields c).2.2.2.2 hf
    | some p =>
      obtain ⟨idx, c1⟩ := p
      obtain ⟨hidx, hends, _, hef, _, _, hsess, _⟩ :=
        getNextAvailableEndpoint_spec now c (idx, c1) hsel
      rw [hsel] at h
      dsimp only at h
      cases htr : tryEndpointRequest fp (env k) c1.sessions
          (c1.endpoints.getD idx default) "/chat/completions"
          c1.endpoint_cooldown now 3 with
      | error e =>
        rw [htr] at h
        simp at h
      | ok ar =>
        rw [htr] at h
        dsimp only at h
        have harval := tryEndpointRequest_ok fp (env k) c1.sessions
          (c1.endpoints.getD idx default) "/chat/completions"
          c1.endpoint_cooldown now 3 ar htr
        cases har : ar.result with
        | some body =>
          have hbad : extractChatText body = none := by
            rw [harval] at har
            obtain ⟨j, hj⟩ := tryEndpointLoop_result_ok fp (env k) 3 _
              c1.endpoint_cooldown now _ 3 0 body har
            exact hb k j body hj
          rw [har] at h
          dsimp only at h
          rw [hbad] at h
          dsimp only at h
          split at h
          · exact absurd h (by simp)
          · rename_i r' hrec
            simp only [Except.ok.injEq] at h
            subst h
            exact ih (k + 1) _ r' (by dsimp only; rw [hef]; exact hf) hrec
        | none =>
          rw [har] at h
          dsimp only at h
          split at h
          · exact absurd h (by simp)
          · rename_i r' hrec
            simp only [Except.ok.injEq] at h
            subst h
            exact ih (k + 1) _ r' (by dsimp only; rw [hef]; exact hf) hrec
/-- C2 counterexample: with fallback enabled (the constructor default) and a
single endpoint whose successful body has neither `choices[0].message.content`
nor `choices[0].text`, the caller receives a canned fallback string — other
response text, not the no-answer value. -/
theorem chat_format_error_fallback_counterexample :
    (DOAIClient.generate_chat_response fp0 envBad 0 clA).map ChatCallResult.response
      = .ok (some
        "Waduh bro, gue lagi kena rate limit dari API nih. Coba lagi nanti ya! 😅") ∧
    (some "Waduh bro, gue lagi kena rate limit dari API nih. Coba lagi nanti ya! 😅" ≠
      (none : Option String)) :=
  ⟨rfl, by simp⟩

/-- C2 (amended): when every selected endpoint's successful body has neither
`choices[0].message.content` nor `choices[0].text`, the format error is
logged, never raised; the caller receives the no-answer value `None` when
fallback is disabled (with fallback enabled a canned fallback string is
returned instead). -/
theorem chat_format_error_no_answer (fp : String → Option ℚ)
    (env : Nat → Nat → HttpOut ChatBody) (now : Nat) (c : DOAIClient)
    (hs : ∀ e ∈ c.endpoints, e.name ∈ c.sessions)
    (hb : ∀ k j b, env k j = HttpOut.ok b → extractChatText b = none)
    (hf : c.enable_fallback = false) :
    ∃ r, DOAIClient.generate_chat_response fp env now c = .ok r ∧
      r.response = none := by
  cases hv : DOAIClient.generate_chat_response fp env now c with
  | error e =>
    exact absurd hv (chatLoopAux_no_error fp env now c.endpoints.length 0 c hs e)
  | ok r =>
    exact ⟨r, rfl,
      chatLoopAux_badformat_none fp env now hb c.endpoints.length 0 c r hf hv⟩

theorem chat_format_error_no_answer_witness :
    (DOAIClient.generate_chat_response fp0 envBad 0 clNF).map ChatCallResult.response
      = .ok none := by
  obtain ⟨r, hr, hnone⟩ := chat_format_error_no_answer fp0 envBad 0 clNF
    (by decide)
    (fun k j b hj => by
      injection hj with hj
      rw [← hj]
      rfl)
    rfl
  rw [hr]
  dsimp only [Except.map]
  rw [hnone]
/-- C10: after `close()` empties the session map, a `generate_chat_response`
or `generate_image` call on a client that still has an available endpoint
raises `KeyError` from the per-endpoint session lookup instead of returning
a result, a fallback string, or the no-result value. -/
theorem closed_client_raises (now : Nat) (c : DOAIClient)
    (hcur : c.current_endpoint_index < c.endpoints.length)
    (hav : ∃ e ∈ c.endpoints, e.is_available now = true) :
    (∀ (fp : String → Option ℚ) (env : Nat → Nat → HttpOut ChatBody),
      ∃ kname, DOAIClient.generate_chat_response fp env now c.close
        = .error (.keyError kname)) ∧
    (∀ (fp : String → Option ℚ) (env : Nat → Nat → HttpOut ImageBody)
      (dl : Nat → DownloadOut) (b64 : String → Except Unit (List Nat)),
      ∃ kname, DOAIClient.generate_image fp env dl b64 now c.close
        = .error (.keyError kname)) := by
  have hcurx : c.close.current_endpoint_index < c.close.endpoints.length := hcur
  have havx : ∃ e ∈ c.close.endpoints, e.is_available now = true := hav
  have hlen : 0 < c.close.endpoints.length := by
    obtain ⟨e, he, _⟩ := havx
    have := List.length_pos.mpr (List.ne_nil_of_mem he)
    omega
  obtain ⟨p, hsel⟩ := getNextAvailableEndpointAux_some_of_avail now c.close
    c.close.endpoints.length 0 (Nat.zero_add _)
    (exists_scan_hit now c.close hcurx havx)
  obtain ⟨idx, c1⟩ := p
  have hsel2 : c.close.getNextAvailableEndpoint now = some (idx, c1) := hsel
  obtain ⟨hidx, hends, _, _, _, _, hsess, _⟩ :=
    getNextAvailableEndpoint_spec now c.close (idx, c1) hsel2
  have hsessnil : c1.sessions = [] := by
    rw [hsess]
    rfl
  obtain ⟨m, hm⟩ : ∃ m, c.close.endpoints.length = m + 1 :=
    ⟨c.close.endpoints.length - 1, by omega⟩
  constructor
  · intro fp env
    refine ⟨(c1.endpoints.getD idx default).name, ?_⟩
    unfold DOAIClient.generate_chat_response
    rw [hm]
    simp only [chatLoopAux]
    rw [hsel2]
    dsimp only
    have htr : tryEndpointRequest fp (env 0) c1.sessions
        (c1.endpoints.getD idx default) "/chat/completions"
        c1.endpoint_cooldown now 3 =
        .error (.keyError (c1.endpoints.getD idx default).name) := by
      unfold tryEndpointRequest
      rw [if_neg]
      rw [hsessnil]
      simp
    rw [htr]
  · intro fp env dl b64
    refine ⟨(c1.endpoints.getD idx default).name, ?_⟩
    unfold DOAIClient.generate_image
    rw [hm]
    simp only [imageLoopAux]
    rw [hsel2]
    dsimp only
    have htr : tryEndpointRequest fp (env 0) c1.sessions
        (c1.endpoints.getD idx default) "/images/generations"
        c1.endpoint_cooldown now 2 =
        .error (.keyError (c1.endpoints.getD idx default).name) := by
      unfold tryEndpointRequest
      rw [if_neg]
      rw [hsessnil]
      simp
    rw [htr]

theorem closed_client_raises_witness :
    DOAIClient.generate_chat_response fp0 env500 0 cl2.close =
      .error (PyError.keyError "A") := by
  obtain ⟨k, hk⟩ := (closed_client_raises 0 cl2 (by decide)
    ⟨epA, by decide, rfl⟩).1 fp0 env500
  exact hk.trans (hk.symm.trans (by rfl))
